import Mathlib

/-!
# Verification development for the qdx-receiver core

Shallow embedding of the core of qdx-receiver:

* the CAT command/response protocol engine (`src/libs/cat/cat.rs`),
* the audio duplex engine and its callback (`src/libs/receiver/receiver.rs`),
* the telemetry relay and its bounded channel (`src/libs/receiver/receiver.rs`,
  `src/libs/gui/gui.rs`).

Rust `f32` sample arithmetic is modelled by exact rational arithmetic (`ℚ`);
the properties settled below are structural (which formula is computed, which
branch is taken) and do not depend on rounding.  Rust `u32` values are
modelled as `Nat` together with the explicit bound `U32MAX`.
-/

/-! ## Decimal rendering (model of Rust `format!("{}", n)` for unsigned integers) -/

/-- The character for a single decimal digit `n < 10`. -/
def digitChar (n : Nat) : Char := Char.ofNat (48 + n)

/-- Fuel-driven decimal rendering: most significant digit first.
`natDigitsAux (fuel+1) n` renders `n` in decimal provided `n < fuel+1`. -/
def natDigitsAux : Nat → Nat → List Char
  | 0, _ => []
  | fuel + 1, n =>
    if n < 10 then [digitChar n]
    else natDigitsAux fuel (n / 10) ++ [digitChar (n % 10)]

/-- The standard decimal rendering of `n` (no sign, no padding, a single `'0'`
for zero) — the string Rust's `Display for u32` produces. -/
def natDigits (n : Nat) : List Char := natDigitsAux (n + 1) n

/-- Value of a list of decimal digit characters, most significant first
(the semantics of Rust's `str::parse` on an all-digit string). -/
def digitsToNat (ds : List Char) : Nat :=
  ds.foldl (fun a c => a * 10 + (c.toNat - 48)) 0

/-- The value of `u32::MAX`. -/
def U32MAX : Nat := 4294967295

/-! ## CAT protocol engine (`src/libs/cat/cat.rs`) -/

/-- Model of `Cat::set_frequency` (cat.rs lines 117–120): it sends
`format!("FA{};", frequency_hz)`: the mnemonic `FA`, the decimal rendering of
the `u32` argument, and the `;` terminator. -/
def setFrequencyRequest (f : Nat) : String :=
  String.mk ('F' :: 'A' :: (natDigits f ++ [';']))

/-- One anchored attempt of the regex `FA(\d{11});` at the head of `cs`:
`FA`, then exactly eleven decimal digits (the capture), then `;`. -/
def faMatchAt (cs : List Char) : Option (List Char) :=
  match cs with
  | c1 :: c2 :: rest =>
    if c1 = 'F' ∧ c2 = 'A' ∧ (rest.take 11).length = 11 ∧
        (rest.take 11).all Char.isDigit = true ∧ (rest.drop 11).head? = some ';'
    then some (rest.take 11)
    else none
  | _ => none

/-- Model of `Regex::captures` with pattern `FA(\d{11});` (cat.rs line 105): leftmost
match anywhere in the string; returns capture group 1 (the eleven digits). -/
def faSearch : List Char → Option (List Char)
  | [] => none
  | c :: rest =>
    match faMatchAt (c :: rest) with
    | some ds => some ds
    | none => faSearch rest

/-- Model of `str::parse::<u32>` on the captured digit string (cat.rs line 109):
succeeds with the numeric value exactly when the (non-empty, all-digit)
string's value fits in a `u32`, and fails with an overflow error otherwise. -/
def parseU32 (ds : List Char) : Option Nat :=
  if ds ≠ [] ∧ ds.all Char.isDigit = true ∧ digitsToNat ds ≤ U32MAX then
    some (digitsToNat ds)
  else none

/-- The frequency-reply parser of `Cat::get_frequency` (cat.rs lines 105–114):
regex capture followed by `u32` parse. -/
def parseFrequencyReply (s : String) : Option Nat :=
  match faSearch s.toList with
  | some ds => parseU32 ds
  | none => none

/-- The mnemonic-echo test of `Cat::receive_response` (cat.rs line 88), as
written in the source: the response is rejected only when its first byte
differs from the request's first byte AND its second byte differs from the
request's second byte. -/
def echoMismatch (request response : List Char) : Bool :=
  (response.get? 0 != request.get? 0) && (response.get? 1 != request.get? 1)

/-- Validation of a received, `;`-terminated reply by `Cat::receive_response`
(cat.rs lines 82–101): the reply must be at least 2 characters long and must
pass the mnemonic-echo test against the request; otherwise the transaction
fails. -/
def receiveResponse (request response : List Char) : Except String (List Char) :=
  if response.length < 2 then
    .error "QDX response was too short"
  else if echoMismatch request response then
    .error "QDX response did not match request"
  else
    .ok response

/-- The 11-digit zero-padded rendering the specification prescribes for
`set_frequency` requests ("`FA` + zero_padded_11_digits(hz) + `;`"), stated
from the spec's words for comparison with `setFrequencyRequest`. -/
def specPaddedRequest (f : Nat) : String :=
  String.mk ('F' :: 'A' ::
    (List.replicate (11 - (natDigits f).length) '0' ++ natDigits f ++ [';']))

/-- Model of `Cat::get_frequency` (cat.rs lines 103–115) applied to a received reply:
the reply is validated by `receive_response` against the request `"FA;"`,
then matched against `FA(\d{11});`, then the capture is parsed as a `u32`. -/
def getFrequencyFromReply (reply : String) : Except String Nat :=
  match receiveResponse ("FA;".toList) reply.toList with
  | .error e => .error e
  | .ok resp =>
    match faSearch resp with
    | some ds =>
      match parseU32 ds with
      | some n => .ok n
      | none => .error "number too large to fit in target type"
    | none => .error "Unexpected frequency response"

/-! ## Audio duplex engine (`src/libs/receiver/receiver.rs`)

`f32` sample arithmetic is modelled over `ℚ`. -/

/-- The shared callback state (receiver.rs lines 18–24). -/
structure CallbackData where
  amplitude : ℚ
  avg_waveform_amplitude : ℚ
  min_waveform_amplitude : ℚ
  max_waveform_amplitude : ℚ
deriving DecidableEq

/-- The state built by `Receiver::new` (receiver.rs lines 39–44). -/
def initialCallbackData : CallbackData :=
  { amplitude := 0
    avg_waveform_amplitude := 0
    min_waveform_amplitude := 100
    max_waveform_amplitude := 0 }

/-- The fixed gain multiplier (receiver.rs line 35). -/
def AMPLITUDE_GAIN : ℚ := 90

/-- Model of `f32::abs`, over the rational model. -/
def qabs (q : ℚ) : ℚ := if q < 0 then -q else q

/-- The per-sample loop accumulator of the duplex callback (receiver.rs
lines 97–112): running minimum, running maximum, the output samples written
so far, and the running sum of absolute processed samples. -/
structure LoopAcc where
  minAmp : ℚ
  maxAmp : ℚ
  outBuf : List ℚ
  sumAbs : ℚ
deriving DecidableEq

/-- One iteration of the callback's sample loop (receiver.rs lines 100–112):
`sample = in_buffer[idx] * amplitude`, update min/max, write the output
sample, accumulate `sample.abs()`. -/
def loopStep (amplitude : ℚ) (acc : LoopAcc) (inSample : ℚ) : LoopAcc :=
  let sample := inSample * amplitude
  { minAmp := if sample < acc.minAmp then sample else acc.minAmp
    maxAmp := if sample > acc.maxAmp then sample else acc.maxAmp
    outBuf := acc.outBuf ++ [sample]
    sumAbs := acc.sumAbs + qabs sample }

/-- The whole sample loop over the interleaved input buffer (the loop runs
over indices `0 .. frames * 2`, which is the length of the interleaved
stereo buffer), starting from `min_amp = 100.0`, `max_amp = 0.0`,
`avg_waveform_amplitude = 0.0` (receiver.rs lines 97–99). -/
def runLoop (amplitude : ℚ) (inBuf : List ℚ) : LoopAcc :=
  inBuf.foldl (loopStep amplitude) { minAmp := 100, maxAmp := 0, outBuf := [], sumAbs := 0 }

/-- One invocation of the duplex callback (receiver.rs lines 90–127) on an
interleaved input buffer: read `amplitude * AMPLITUDE_GAIN`, run the sample
loop, divide the accumulated absolute sum by the hard-coded `128.0`, then
update the shared state: `avg -= avg / 40.0; avg += buffer_avg / 40.0`, and
fold the buffer's min/max into the stored min/max.  Returns the updated
state together with the output buffer. -/
def callbackStep (cd : CallbackData) (inBuf : List ℚ) : CallbackData × List ℚ :=
  let amplitude := cd.amplitude * AMPLITUDE_GAIN
  let acc := runLoop amplitude inBuf
  let avg := acc.sumAbs / 128
  let avg1 := cd.avg_waveform_amplitude - cd.avg_waveform_amplitude / 40
  let avg2 := avg1 + avg / 40
  ({ cd with
      avg_waveform_amplitude := avg2
      min_waveform_amplitude :=
        if acc.minAmp < cd.min_waveform_amplitude then acc.minAmp
        else cd.min_waveform_amplitude
      max_waveform_amplitude :=
        if acc.maxAmp > cd.max_waveform_amplitude then acc.maxAmp
        else cd.max_waveform_amplitude },
   acc.outBuf)

/-- A sequence of callback invocations: threads the shared state through and
collects every output buffer produced. -/
def runCallbacks : CallbackData → List (List ℚ) → CallbackData × List (List ℚ)
  | cd, [] => (cd, [])
  | cd, buf :: bufs =>
    let step := callbackStep cd buf
    let rest := runCallbacks step.1 bufs
    (rest.1, step.2 :: rest.2)

/-- Model of `Receiver::set_amplitude` (receiver.rs lines 156–159): stores the
argument into the shared state's `amplitude` field. -/
def setAmplitude (a : ℚ) (cd : CallbackData) : CallbackData :=
  { cd with amplitude := a }

/-- The factor the callback multiplies each input sample by
(receiver.rs lines 93–94 and 103). -/
def appliedGain (cd : CallbackData) : ℚ := cd.amplitude * AMPLITUDE_GAIN

/-! ## Telemetry relay and channel (`receiver.rs` lines 52–73, `gui.rs` line 94) -/

/-- The telemetry message type (`gui_api.rs`). -/
inductive GUIInputMessage where
  | signalStrength (level : ℚ)
deriving DecidableEq

/-- The capacity of the GUI input channel:
`sync_channel::<GUIInputMessage>(16)` (gui.rs line 94). -/
def CHANNEL_CAPACITY : Nat := 16

/-- The possible outcomes of a push at a relay tick.  `dropped` is what a
`try_send`-based relay would produce on a full channel; it is never produced
by `std::sync::mpsc::SyncSender::send`, which blocks instead. -/
inductive SendOutcome where
  | sent (queue : List GUIInputMessage)
  | blocked
  | dropped
deriving DecidableEq

/-- Model of `std::sync::mpsc::SyncSender::send` on a connected bounded channel:
enqueue when there is a free slot; block the calling thread while the buffer
is full. -/
def syncSend (queue : List GUIInputMessage) (msg : GUIInputMessage) : SendOutcome :=
  if queue.length < CHANNEL_CAPACITY then .sent (queue ++ [msg]) else .blocked

/-- The relay thread's push at one tick (receiver.rs line 69):
`let _ = gui_input.send(GUIInputMessage::SignalStrength(strength));` —
a blocking `send` whose `Result` (a disconnection error) is discarded. -/
def relayTickPush (queue : List GUIInputMessage) (strength : ℚ) : SendOutcome :=
  syncSend queue (.signalStrength strength)

/-! ## Receiver teardown (`receiver.rs` lines 129–140 and 162–170) -/

/-- Outcome of `Drop for Receiver`. -/
inductive DropOutcome where
  | stopped
  | panicked
deriving DecidableEq

/-- The part of the `Receiver` state that teardown inspects:
`duplex_stream: Option<Stream<...>>`, `None` until a stream has been
successfully opened and started. -/
structure ReceiverState where
  duplex_stream : Option Unit
deriving DecidableEq

/-- The state after `Receiver::new` (receiver.rs line 77): `duplex_stream: None`. -/
def initialReceiverState : ReceiverState := { duplex_stream := none }

/-- Model of `Receiver::start_duplex_callback` (receiver.rs lines 129–140): when
`open_non_blocking_stream` succeeds the started stream is stored; when it
fails the error is only logged (`warn!`), `Ok(())` is returned, and
`duplex_stream` stays `None`. -/
def startDuplexCallback (openedStream : Option Unit) (rs : ReceiverState) : ReceiverState :=
  match openedStream with
  | some s => { rs with duplex_stream := some s }
  | none => rs

/-- Model of `Drop for Receiver` (receiver.rs lines 162–170):
`self.duplex_stream.as_mut().unwrap().stop()` — stops the stream when one is
present, and panics (`Option::unwrap` on `None`) when none was ever
started. -/
def dropReceiver (rs : ReceiverState) : DropOutcome :=
  match rs.duplex_stream with
  | some _ => .stopped
  | none => .panicked

/-! ## Lemmas about the decimal renderer -/

theorem natDigitsAux_irrel (f1 : Nat) : ∀ (f2 n : Nat), n < f1 → n < f2 →
    natDigitsAux f1 n = natDigitsAux f2 n := by
  induction f1 with
  | zero => intro f2 n h1 _; omega
  | succ g ih =>
    intro f2 n h1 h2
    cases f2 with
    | zero => omega
    | succ g2 =>
      simp only [natDigitsAux]
      by_cases hn : n < 10
      · simp [hn]
      · simp only [hn, if_false]
        have hrec : natDigitsAux g (n / 10) = natDigitsAux g2 (n / 10) :=
          ih g2 (n / 10) (by omega) (by omega)
        rw [hrec]

theorem natDigits_lt10 (n : Nat) (h : n < 10) : natDigits n = [digitChar n] := by
  simp [natDigits, natDigitsAux, h]

theorem natDigits_ge10 (n : Nat) (h : 10 ≤ n) :
    natDigits n = natDigits (n / 10) ++ [digitChar (n % 10)] := by
  unfold natDigits
  conv_lhs => rw [natDigitsAux]
  rw [if_neg (by omega)]
  rw [natDigitsAux_irrel n (n / 10 + 1) (n / 10) (by omega) (by omega)]

theorem digitChar_isDigit : ∀ n, n < 10 → (digitChar n).isDigit = true := by decide

theorem digitChar_val : ∀ n, n < 10 → (digitChar n).toNat - 48 = n := by decide

theorem natDigits_all_digits (n : Nat) : (natDigits n).all Char.isDigit = true := by
  induction n using Nat.strong_induction_on with
  | _ n ih =>
    by_cases h : n < 10
    · rw [natDigits_lt10 n h]
      simp [digitChar_isDigit n h]
    · rw [natDigits_ge10 n (by omega)]
      rw [List.all_append]
      simp [ih (n / 10) (by omega), digitChar_isDigit (n % 10) (by omega)]

theorem digitsToNat_append (xs : List Char) (c : Char) :
    digitsToNat (xs ++ [c]) = digitsToNat xs * 10 + (c.toNat - 48) := by
  simp [digitsToNat, List.foldl_append]

theorem digitsToNat_natDigits (n : Nat) : digitsToNat (natDigits n) = n := by
  induction n using Nat.strong_induction_on with
  | _ n ih =>
    by_cases h : n < 10
    · rw [natDigits_lt10 n h]
      have : digitsToNat [digitChar n] = (digitChar n).toNat - 48 := by
        simp [digitsToNat]
      rw [this, digitChar_val n h]
    · rw [natDigits_ge10 n (by omega), digitsToNat_append,
        ih (n / 10) (by omega), digitChar_val (n % 10) (by omega)]
      omega

theorem natDigits_length_le (k : Nat) : ∀ n, 1 ≤ k → n < 10 ^ k →
    (natDigits n).length ≤ k := by
  induction k with
  | zero => intro n h _; omega
  | succ m ih =>
    intro n _ hn
    by_cases h10 : n < 10
    · rw [natDigits_lt10 n h10]; simp
    · have hm : 1 ≤ m := by
        by_contra hc
        have : m = 0 := by omega
        subst this
        simp at hn
        omega
      have hdiv : n / 10 < 10 ^ m := by
        have hp : (10:Nat) ^ (m + 1) = 10 ^ m * 10 := by ring
        omega
      rw [natDigits_ge10 n (by omega)]
      rw [List.length_append]
      have := ih (n / 10) hm hdiv
      simp only [List.length_cons, List.length_nil]
      omega

theorem natDigits_length_le_ten (f : Nat) (h : f ≤ U32MAX) :
    (natDigits f).length ≤ 10 :=
  natDigits_length_le 10 f (by omega) (by unfold U32MAX at h; norm_num; omega)

/-! ## Lemmas about the `FA(\d{11});` search -/

theorem faSearch_cons (c : Char) (rest : List Char) :
    faSearch (c :: rest) =
      match faMatchAt (c :: rest) with
      | some ds => some ds
      | none => faSearch rest := rfl

theorem faMatchAt_head_ne (c : Char) (cs : List Char) (h : c ≠ 'F') :
    faMatchAt (c :: cs) = none := by
  cases cs with
  | nil => rfl
  | cons c2 rest => simp [faMatchAt, h]

theorem faSearch_no_F (cs : List Char) (h : ∀ c ∈ cs, c ≠ 'F') :
    faSearch cs = none := by
  induction cs with
  | nil => rfl
  | cons c rest ih =>
    rw [faSearch_cons, faMatchAt_head_ne c rest (h c (List.mem_cons_self c rest))]
    exact ih (fun c hc => h c (List.mem_cons_of_mem _ hc))

theorem faMatchAt_rendered_eq_none (f : Nat) (h : f ≤ U32MAX) :
    faMatchAt ('F' :: 'A' :: (natDigits f ++ [';'])) = none := by
  have hlen := natDigits_length_le_ten f h
  simp only [faMatchAt]
  rw [if_neg]
  rintro ⟨-, -, hlen11, hall, -⟩
  rcases Nat.lt_or_ge (natDigits f).length 10 with hl | hl
  · rw [List.length_take, List.length_append] at hlen11
    simp only [List.length_cons, List.length_nil] at hlen11
    omega
  · have hf10 : (natDigits f).length = 10 := le_antisymm hlen hl
    have htake : (natDigits f ++ [';']).take 11 = natDigits f ++ [';'] :=
      List.take_of_length_le (by simp [hf10])
    rw [htake, List.all_eq_true] at hall
    have hsemi := hall ';' (by simp)
    exact absurd hsemi (by decide)

theorem faSearch_rendered_eq_none (f : Nat) (h : f ≤ U32MAX) :
    faSearch ('F' :: 'A' :: (natDigits f ++ [';'])) = none := by
  rw [faSearch_cons, faMatchAt_rendered_eq_none f h]
  apply faSearch_no_F
  intro c hc
  rcases List.mem_cons.mp hc with hA | hrest
  · rw [hA]; decide
  · rcases List.mem_append.mp hrest with hdig | hsemi
    · have := natDigits_all_digits f
      rw [List.all_eq_true] at this
      have hcd := this c hdig
      intro hF
      rw [hF] at hcd
      exact absurd hcd (by decide)
    · rcases List.mem_singleton.mp hsemi with rfl
      decide

/-! ## Claim C1 -/

/-- C1 (counterexample): the claim says `set_frequency(7074000)` writes
`"FA00007074000;"` (the 11-digit zero-padded rendering); the code writes
`"FA7074000;"` — `format!("FA{};", hz)` does not pad. -/
theorem set_frequency_7074000_not_padded :
    setFrequencyRequest 7074000 = "FA7074000;" ∧
    setFrequencyRequest 7074000 ≠ "FA00007074000;" ∧
    specPaddedRequest 7074000 = "FA00007074000;" :=
  ⟨by decide, by decide, by decide⟩

/-- C1 (amended): for every `u32` frequency `f`, `set_frequency(f)` writes
exactly `"FA"`, then the plain (un-padded, no-leading-zero) decimal rendering
of `f` — a digit string whose numeric value is exactly `f` and whose length
is at most 10 — then `";"`. -/
theorem set_frequency_request_unpadded (f : Nat) (h : f ≤ U32MAX) :
    (setFrequencyRequest f).toList = 'F' :: 'A' :: (natDigits f ++ [';']) ∧
    (natDigits f).all Char.isDigit = true ∧
    digitsToNat (natDigits f) = f ∧
    (natDigits f).length ≤ 10 :=
  ⟨rfl, natDigits_all_digits f, digitsToNat_natDigits f, natDigits_length_le_ten f h⟩

/-- Witness for `set_frequency_request_unpadded` at `f = 7074000`. -/
theorem set_frequency_request_unpadded_witness :
    (setFrequencyRequest 7074000).toList = 'F' :: 'A' :: (natDigits 7074000 ++ [';']) ∧
    (natDigits 7074000).all Char.isDigit = true ∧
    digitsToNat (natDigits 7074000) = 7074000 ∧
    (natDigits 7074000).length ≤ 10 :=
  set_frequency_request_unpadded 7074000 (by decide)

/-! ## Claim C2 -/

/-- C2 (counterexample): the claim says the reply parser applied to the
request rendered by `set_frequency(f)` yields `f` again; at `f = 7074000`
the rendered request `"FA7074000;"` has only 7 digits, the `FA(\d{11});`
pattern finds no match, and the parse yields nothing. -/
theorem parse_rendered_7074000_fails :
    parseFrequencyReply (setFrequencyRequest 7074000) ≠ some 7074000 := by decide

/-- C2 (amended): for every representable (`u32`) frequency `f`, applying the
reply parser (the `FA(\d{11});` pattern of `get_frequency` followed by the
`u32` parse) to the request string produced by `set_frequency(f)` fails:
the rendered digit string is never 11 digits long, so the round-trip never
holds. -/
theorem parse_of_rendered_request_fails (f : Nat) (h : f ≤ U32MAX) :
    parseFrequencyReply (setFrequencyRequest f) = none := by
  unfold parseFrequencyReply
  have htl : (setFrequencyRequest f).toList = 'F' :: 'A' :: (natDigits f ++ [';']) := rfl
  rw [htl, faSearch_rendered_eq_none f h]

/-- Witness for `parse_of_rendered_request_fails` at `f = 14074000`. -/
theorem parse_of_rendered_request_fails_witness :
    parseFrequencyReply (setFrequencyRequest 14074000) = none :=
  parse_of_rendered_request_fails 14074000 (by decide)

/-! ## Claim C3 -/

/-- C3 (code divergence): the claim says any mismatch of the two-character
command-mnemonic echo fails the transaction, but cat.rs line 88 combines the
two character comparisons with `&&` instead of `||`: the response `"FB;"` to
request `"FA;"` (first characters agree, second differ) is accepted, while a
response differing in both characters is rejected. -/
theorem receive_response_accepts_half_mismatch :
    receiveResponse "FA;".toList "FB;".toList = Except.ok "FB;".toList ∧
    receiveResponse "FA;".toList "XY;".toList =
      Except.error "QDX response did not match request" :=
  ⟨rfl, rfl⟩

/-! ## Claim C8 -/

/-- C8 (counterexample): the claim says every reply `"FA" + D + ";"` with
`D` any 11 decimal digits yields `Ok` with the value of `D`; for
`D = "99999999999"` the value exceeds `u32::MAX` and `str::parse::<u32>`
fails, so `get_frequency` returns an error. -/
theorem get_frequency_overflow_reply_errors :
    getFrequencyFromReply "FA99999999999;" ≠ Except.ok 99999999999 :=
  fun h =>
    Except.noConfusion
      ((rfl :
        getFrequencyFromReply "FA99999999999;" =
          Except.error "number too large to fit in target type").symm.trans h)

/-- C8 (amended): for every reply of the exact form `"FA" + D + ";"` with `D`
eleven decimal digits whose value fits in a `u32`, `get_frequency` returns
`Ok` with the integer value of `D` exactly. -/
theorem get_frequency_parses_fitting_reply (D : List Char) (h11 : D.length = 11)
    (hdig : D.all Char.isDigit = true) (hle : digitsToNat D ≤ U32MAX) :
    getFrequencyFromReply (String.mk ('F' :: 'A' :: (D ++ [';']))) =
      Except.ok (digitsToNat D) := by
  have htl : (String.mk ('F' :: 'A' :: (D ++ [';']))).toList =
      'F' :: 'A' :: (D ++ [';']) := rfl
  have hrr : receiveResponse ("FA;".toList) ('F' :: 'A' :: (D ++ [';'])) =
      Except.ok ('F' :: 'A' :: (D ++ [';'])) := by
    unfold receiveResponse
    rw [if_neg (by simp), if_neg (by simp [echoMismatch])]
  have e1 : (D ++ [';']).take 11 = D := by
    rw [← h11]; exact List.take_left D [';']
  have e2 : (D ++ [';']).drop 11 = [';'] := by
    rw [← h11]; exact List.drop_left D [';']
  have hm : faMatchAt ('F' :: 'A' :: (D ++ [';'])) = some D := by
    simp [faMatchAt, e1, e2, h11, hdig]
  have hs : faSearch ('F' :: 'A' :: (D ++ [';'])) = some D := by
    rw [faSearch_cons, hm]
  have hne : D ≠ [] := by
    intro hD; rw [hD] at h11; simp at h11
  have hp : parseU32 D = some (digitsToNat D) := by
    unfold parseU32
    rw [if_pos ⟨hne, hdig, hle⟩]
  unfold getFrequencyFromReply
  simp only [htl, hrr, hs, hp]

/-- Witness for `get_frequency_parses_fitting_reply`: the reply
`"FA00014074000;"` yields `14074000`. -/
theorem get_frequency_parses_fitting_reply_witness :
    getFrequencyFromReply "FA00014074000;" = Except.ok 14074000 := by
  have h := get_frequency_parses_fitting_reply ("00014074000".toList)
    (by decide) (by decide) (by decide)
  have he : String.mk ('F' :: 'A' :: ("00014074000".toList ++ [';'])) =
      "FA00014074000;" := by decide
  have hv : digitsToNat ("00014074000".toList) = 14074000 := by decide
  rw [he, hv] at h
  exact h

/-! ## Claim C4 -/

theorem foldl_loopStep_replicate_sumAbs (a x : ℚ) :
    ∀ (n : Nat) (acc : LoopAcc),
      ((List.replicate n x).foldl (loopStep a) acc).sumAbs
        = acc.sumAbs + n * qabs (x * a) := by
  intro n
  induction n with
  | zero => intro acc; simp
  | succ m ih =>
    intro acc
    rw [List.replicate_succ, List.foldl_cons, ih]
    simp only [loopStep]
    push_cast
    ring

theorem runLoop_replicate_sumAbs (a x : ℚ) (n : Nat) :
    (runLoop a (List.replicate n x)).sumAbs = n * qabs (x * a) := by
  rw [runLoop, foldl_loopStep_replicate_sumAbs]
  simp

/-- C4 (counterexample): the claim says the smoothing factor is α = 0.1, so
starting from level 0 with average processed magnitude 0.5 one invocation
should yield 0.05; the code (receiver.rs lines 116–117) divides by 40, so
one invocation yields 0.0125 = 1/80. -/
theorem callback_ema_alpha_counterexample :
    (runLoop ((1/90 : ℚ) * AMPLITUDE_GAIN) (List.replicate 128 (1/2))).sumAbs / 128
      = 1/2 ∧
    (callbackStep
        { amplitude := 1/90, avg_waveform_amplitude := 0,
          min_waveform_amplitude := 100, max_waveform_amplitude := 0 }
        (List.replicate 128 (1/2))).1.avg_waveform_amplitude = 1/80 ∧
    (1/80 : ℚ) ≠ 0 * (1 - 1/10) + (1/2) * (1/10) := by
  have habs : qabs ((1/2 : ℚ) * ((1/90) * AMPLITUDE_GAIN)) = 1/2 := by
    rw [AMPLITUDE_GAIN, qabs]
    norm_num
  have hsum : (runLoop ((1/90 : ℚ) * AMPLITUDE_GAIN)
      (List.replicate 128 (1/2))).sumAbs = 64 := by
    rw [runLoop_replicate_sumAbs, habs]
    norm_num
  refine ⟨by rw [hsum]; norm_num, ?_, by norm_num⟩
  simp only [callbackStep]
  norm_num [hsum]

/-- C4 (amended): on every callback invocation the smoothed signal level is
updated by the exponential moving average with smoothing factor α = 1/40
(0.025, not 0.1): `level' = level * (1 − 1/40) + sample_avg * (1/40)`, where
`sample_avg` is the sum of absolute processed samples divided by the
hard-coded 128.0. -/
theorem callback_ema_alpha_one_fortieth (cd : CallbackData) (inBuf : List ℚ) :
    (callbackStep cd inBuf).1.avg_waveform_amplitude =
      cd.avg_waveform_amplitude * (1 - 1/40)
        + ((runLoop (cd.amplitude * AMPLITUDE_GAIN) inBuf).sumAbs / 128) * (1/40) := by
  simp only [callbackStep]
  ring

/-! ## Claim C5 -/

/-- C5 (counterexample): the claim says `set_amplitude` clamps its argument
into [0.0, 1.0] before storing; the code (receiver.rs lines 156–159) stores
the argument verbatim: after `set_amplitude(2.0)` the stored amplitude is
2.0, outside [0, 1], and the factor the callback applies is 2.0 × 90.0 =
180.0. -/
theorem set_amplitude_two_unclamped :
    (setAmplitude 2 initialCallbackData).amplitude = 2 ∧
    ¬ ((setAmplitude 2 initialCallbackData).amplitude ≤ 1) ∧
    appliedGain (setAmplitude 2 initialCallbackData) = 180 :=
  ⟨rfl, by norm_num [setAmplitude, initialCallbackData],
    by norm_num [appliedGain, setAmplitude, initialCallbackData, AMPLITUDE_GAIN]⟩

/-- C5 (amended): `set_amplitude` stores its argument unchanged (no
clamping), and the factor the callback multiplies input samples by is the
stored amplitude times the fixed gain 90.0 — it is not confined to
[0.0, 1.0]. -/
theorem set_amplitude_stores_verbatim (cd : CallbackData) (a : ℚ) :
    (setAmplitude a cd).amplitude = a ∧
    appliedGain (setAmplitude a cd) = a * AMPLITUDE_GAIN :=
  ⟨rfl, rfl⟩

/-! ## Claims C9 and C10 -/

theorem callbackStep_amplitude (cd : CallbackData) (buf : List ℚ) :
    (callbackStep cd buf).1.amplitude = cd.amplitude := rfl

theorem runLoop_zero_out (buf : List ℚ) :
    ∀ acc : LoopAcc, (∀ y ∈ acc.outBuf, y = 0) →
      ∀ x ∈ (buf.foldl (loopStep 0) acc).outBuf, x = 0 := by
  induction buf with
  | nil => intro acc h x hx; exact h x hx
  | cons s rest ih =>
    intro acc h x hx
    rw [List.foldl_cons] at hx
    refine ih (loopStep 0 acc s) ?_ x hx
    intro y hy
    simp only [loopStep] at hy
    rcases List.mem_append.mp hy with h1 | h2
    · exact h y h1
    · rcases List.mem_singleton.mp h2 with rfl
      exact mul_zero s

theorem callbackStep_zero_out (cd : CallbackData) (h : cd.amplitude = 0)
    (buf : List ℚ) : ∀ x ∈ (callbackStep cd buf).2, x = 0 := by
  intro x hx
  have hg : cd.amplitude * AMPLITUDE_GAIN = 0 := by rw [h]; ring
  have h2 : (callbackStep cd buf).2 =
      (runLoop (cd.amplitude * AMPLITUDE_GAIN) buf).outBuf := rfl
  rw [h2, runLoop, hg] at hx
  refine runLoop_zero_out buf _ ?_ x hx
  intro y hy
  exact absurd hy (List.not_mem_nil y)

/-- C9 (confirmed): after `set_amplitude(0.0)`, every output sample produced
by every subsequent callback invocation is exactly 0, for every input
buffer: the callback multiplies each input sample by
`amplitude * AMPLITUDE_GAIN = 0 * 90 = 0`, and no callback invocation
modifies the stored amplitude. -/
theorem zero_amplitude_all_outputs_zero (cd : CallbackData) (bufs : List (List ℚ))
    (out : List ℚ) (x : ℚ)
    (hout : out ∈ (runCallbacks (setAmplitude 0 cd) bufs).2) (hx : x ∈ out) :
    x = 0 := by
  have main : ∀ (bufs : List (List ℚ)) (st : CallbackData), st.amplitude = 0 →
      ∀ out ∈ (runCallbacks st bufs).2, ∀ x ∈ out, x = 0 := by
    intro bufs
    induction bufs with
    | nil => intro st h out hout; simp [runCallbacks] at hout
    | cons b rest ih =>
      intro st h out hout x0 hx0
      simp only [runCallbacks] at hout
      rcases List.mem_cons.mp hout with h1 | h2
      · subst h1
        exact callbackStep_zero_out st h b x0 hx0
      · refine ih (callbackStep st b).1 ?_ out h2 x0 hx0
        rw [callbackStep_amplitude, h]
  exact main bufs (setAmplitude 0 cd) rfl out hout x hx

/-- Witness for `zero_amplitude_all_outputs_zero`: one callback invocation
on input buffer `[3]` after `set_amplitude 0` outputs the zero sample. -/
theorem zero_amplitude_all_outputs_zero_witness :
    (3 : ℚ) * ((0 : ℚ) * AMPLITUDE_GAIN) = 0 :=
  zero_amplitude_all_outputs_zero initialCallbackData [[3]]
    [3 * (0 * AMPLITUDE_GAIN)] (3 * (0 * AMPLITUDE_GAIN))
    (by simp [runCallbacks, callbackStep, runLoop, loopStep, setAmplitude])
    (by simp)

/-- C10 (confirmed): `set_amplitude` modifies only the `amplitude` field of
the shared callback state: `avg_waveform_amplitude`,
`min_waveform_amplitude` and `max_waveform_amplitude` are unchanged. -/
theorem set_amplitude_frame_effect (cd : CallbackData) (a : ℚ) :
    (setAmplitude a cd).avg_waveform_amplitude = cd.avg_waveform_amplitude ∧
    (setAmplitude a cd).min_waveform_amplitude = cd.min_waveform_amplitude ∧
    (setAmplitude a cd).max_waveform_amplitude = cd.max_waveform_amplitude :=
  ⟨rfl, rfl, rfl⟩

/-! ## Claim C6 -/

/-- C6 (counterexample): the claim says a full channel at a relay tick drops
the sample without blocking; the relay (receiver.rs line 69) uses the
blocking `SyncSender::send`, so with the 16-slot channel full the push
blocks the relay thread — the sample is not dropped. -/
theorem full_channel_tick_blocks :
    relayTickPush (List.replicate 16 (GUIInputMessage.signalStrength 0)) 1 =
      SendOutcome.blocked ∧
    relayTickPush (List.replicate 16 (GUIInputMessage.signalStrength 0)) 1 ≠
      SendOutcome.dropped :=
  ⟨by decide, by decide⟩

/-- C6 (amended): whenever the telemetry channel is full at the moment the
relay ticks, the push blocks the relay thread until space is available
(`SyncSender::send` semantics); the sample is not dropped.  (Send errors —
a disconnected receiver — are discarded, but fullness is not an error.) -/
theorem relay_send_blocks_on_full (q : List GUIInputMessage) (s : ℚ)
    (h : CHANNEL_CAPACITY ≤ q.length) :
    relayTickPush q s = SendOutcome.blocked := by
  unfold relayTickPush syncSend
  rw [if_neg (by omega)]

/-- Witness for `relay_send_blocks_on_full` on a full 16-slot queue. -/
theorem relay_send_blocks_on_full_witness :
    relayTickPush (List.replicate 16 (GUIInputMessage.signalStrength (1/2))) 0 =
      SendOutcome.blocked :=
  relay_send_blocks_on_full _ _ (by decide)

/-! ## Claim C7 -/

/-- C7 (code divergence): the claim says teardown with no started stream is
a no-op; `Drop for Receiver` (receiver.rs line 164) calls
`self.duplex_stream.as_mut().unwrap().stop()`, so with `duplex_stream ==
None` — the state after `Receiver::new`, kept by `start_duplex_callback`
when `open_non_blocking_stream` fails (a failure that method tolerates,
returning `Ok`) — teardown panics instead of completing. -/
theorem drop_without_stream_panicks :
    dropReceiver initialReceiverState = DropOutcome.panicked ∧
    dropReceiver (startDuplexCallback none initialReceiverState) =
      DropOutcome.panicked ∧
    dropReceiver (startDuplexCallback (some ()) initialReceiverState) =
      DropOutcome.stopped :=
  ⟨rfl, rfl, rfl⟩
